import Mathlib

/-!
Verification of the NodeJs ProxyServerClient repository.

The repository contains two variants of a caching forward HTTP proxy:

* `src/proxy_server.js` — the "simple" variant: a linked-list LRU cache
  (`LRUCache` storing `CacheElement` nodes), a `Semaphore` without timeout,
  and a `handleRequest` pipeline (method / version / URL validation, cache
  lookup keyed by the raw request URL, upstream fetch, unconditional caching
  of the fetched body).

* `src/unnamed/part_001` — the "richer" variant: a Map-based LRU cache with
  a periodic cleanup sweep, a `Semaphore` whose `acquire` takes a timeout and
  rejects with a `ProxyError` carrying status 503, a `RequestHandler` fetcher
  with bounded retry, and a `ProxyServer.handleRequest` pipeline that caches
  only status-200 responses under the key `method ++ " " ++ url`.

Shallow embedding conventions:

* JS numbers that hold byte counts are modelled as `Int` (they are only ever
  added and subtracted; `Int` keeps JS subtraction semantics exact).
* Buffers (byte bodies) are modelled as `List Nat`; `Buffer.byteLength` of a
  body is its list length, `Buffer.byteLength` of a string key is its UTF-8
  byte count (`String.utf8ByteSize`).
* A JS `Map` is modelled as an association list in insertion order:
  `Map.set` on an existing key updates the value in place (keeping the
  original iteration position), otherwise it appends.
* `Date.now()` / `performance.now()` are modelled by an explicit `now : Nat`
  argument threaded into each operation.
* The `while` loop inside `add` can fail to make progress (`removeOldest` on
  an empty map returns without changing anything); an operation that would
  loop forever in JS is modelled as returning `none`.
-/

/-! ## Constants (`CONFIG` in part_001, top-level constants in proxy_server.js) -/

def MAX_BYTES : Int := 4096

def MAX_CLIENTS : Int := 400

/-- `200 * (1 << 20)` bytes. -/
def MAX_CACHE_SIZE : Int := 200 * 2 ^ 20

/-- `10 * (1 << 20)` bytes. -/
def MAX_ELEMENT_SIZE : Int := 10 * 2 ^ 20

def REQUEST_TIMEOUT : Nat := 5000

def MAX_RETRIES : Nat := 3

/-! ## Map-variant LRU cache (`LRUCache` in src/unnamed/part_001) -/

/-- `CacheElement` of part_001: body bytes, key, `performance.now()` stamp,
hit count, `Date.now()` last-access stamp, and the recorded byte size. -/
structure CacheElement where
  data : List Nat
  url : String
  timestamp : Nat
  hits : Nat
  lastAccessed : Nat
  size : Int
deriving Repr, DecidableEq

/-- `Buffer.byteLength(data) + Buffer.byteLength(url)` as computed in the
`CacheElement` constructor and at the top of `add`. -/
def elemSize (data : List Nat) (url : String) : Int :=
  (data.length : Int) + (url.utf8ByteSize : Int)

/-- The `CacheElement` constructor: `hits = 0`, both time stamps set to the
current clock, size recomputed from body and key. -/
def CacheElement.make (data : List Nat) (url : String) (now : Nat) : CacheElement :=
  { data := data, url := url, timestamp := now, hits := 0, lastAccessed := now,
    size := elemSize data url }

/-- `updateAccess()`: bump `hits`, refresh both time stamps. -/
def CacheElement.updateAccess (e : CacheElement) (now : Nat) : CacheElement :=
  { e with hits := e.hits + 1, lastAccessed := now, timestamp := now }

/-- The Map-based cache state: `maxSize`, running byte total `currentSize`,
and the `cacheMap` as an association list in JS `Map` insertion order. -/
structure LRUCache where
  maxSize : Int
  currentSize : Int
  entries : List (String × CacheElement)
deriving Repr, DecidableEq

/-- `cacheMap.get(url)`. -/
def lookupEntry (entries : List (String × CacheElement)) (k : String) :
    Option CacheElement :=
  (entries.find? (fun p => p.1 = k)).map (·.2)

/-- Overwrite the value stored at an existing key, keeping its position. -/
def setExisting (entries : List (String × CacheElement)) (k : String)
    (e : CacheElement) : List (String × CacheElement) :=
  entries.map (fun p => if p.1 = k then (k, e) else p)

/-- `cacheMap.set(url, e)`: JS `Map.set` updates an existing key in place
(keeping its iteration position) and appends a fresh key at the end. -/
def mapSet (entries : List (String × CacheElement)) (k : String)
    (e : CacheElement) : List (String × CacheElement) :=
  if (entries.find? (fun p => p.1 = k)).isSome then setExisting entries k e
  else entries ++ [(k, e)]

/-- `find(url)`: on a hit the element is mutated in place by `updateAccess`
and returned; on a miss nothing changes. (The `cacheHit` / `cacheMiss`
events carry no state.) -/
def LRUCache.find (c : LRUCache) (k : String) (now : Nat) :
    Option CacheElement × LRUCache :=
  match lookupEntry c.entries k with
  | some e =>
      let e' := e.updateAccess now
      (some e', { c with entries := setExisting c.entries k e' })
  | none => (none, c)

/-- One step of the scan inside `removeOldest`: `oldestTime` starts at
`Infinity` (here: `none`) and an entry with a strictly smaller
`lastAccessed` replaces the candidate. -/
def scanStep (acc : Option (String × Nat)) (p : String × CacheElement) :
    Option (String × Nat) :=
  match acc with
  | none => some (p.1, p.2.lastAccessed)
  | some (k, t) =>
      if p.2.lastAccessed < t then some (p.1, p.2.lastAccessed)
      else some (k, t)

/-- The `for (const [key, element] of this.cacheMap.entries())` scan of
`removeOldest`; the first entry (in map order) with the minimal stamp
wins. -/
def removeOldestScan (entries : List (String × CacheElement)) :
    Option (String × Nat) :=
  entries.foldl scanStep none

/-- `removeOldest()`. Note the JS guard `if (oldestKey)`: it is false both
for `null` (empty map) and for the empty-string key, so an entry keyed `""`
is never deleted here. Returns the removed key, if any. -/
def LRUCache.removeOldest (c : LRUCache) : LRUCache × Option String :=
  if c.entries.isEmpty then (c, none)
  else
    match removeOldestScan c.entries with
    | none => (c, none)
    | some (k, _) =>
        if k = "" then (c, none)
        else
          match lookupEntry c.entries k with
          | none => (c, none)
          | some e =>
              ({ c with
                  currentSize := c.currentSize - e.size,
                  entries := c.entries.eraseP (fun p => decide (p.1 = k)) },
                some k)

/-- The `while (this.currentSize + size > this.maxSize) this.removeOldest()`
loop of `add`. Each productive `removeOldest` shortens the map by one entry,
and an unproductive one leaves the state fixed (so the JS loop runs forever);
hence fuel `entries.length + 1` suffices exactly when the JS loop terminates,
and `none` models divergence. -/
def evictLoop (size : Int) : Nat → LRUCache → Option LRUCache
  | 0, _ => none
  | fuel + 1, c =>
      if c.currentSize + size > c.maxSize then
        evictLoop size fuel (c.removeOldest).1
      else some c

/-- Result of `add`: `tooLarge` is the `return false` branch that emits the
`cacheError` event `Content too large for cache`; `added` is `return true`. -/
inductive AddOutcome where
  | tooLarge
  | added
deriving Repr, DecidableEq

/-- `add(data, url)` of part_001. `none` models the JS loop never returning.
On success the new element is installed with `cacheMap.set` and the FULL new
size is added to `currentSize` (the size of a replaced entry is not
subtracted). -/
def LRUCache.add (c : LRUCache) (data : List Nat) (url : String) (now : Nat) :
    Option (AddOutcome × LRUCache) :=
  let size := elemSize data url
  if size > MAX_ELEMENT_SIZE then some (.tooLarge, c)
  else
    match evictLoop size (c.entries.length + 1) c with
    | none => none
    | some c' =>
        some (.added,
          { c' with
              entries := mapSet c'.entries url (CacheElement.make data url now),
              currentSize := c'.currentSize + size })

/-- `cleanupCache()`: delete every entry idle for more than one hour,
subtracting each deleted entry's size. (JS `now - lastAccessed` can be
negative, in which case the entry is kept; `Nat` truncated subtraction gives
`0 > 3600000 = false` there, the same outcome.) -/
def LRUCache.cleanupCache (c : LRUCache) (now : Nat) : LRUCache :=
  let expired := c.entries.filter (fun p => now - p.2.lastAccessed > 3600000)
  { c with
      entries := c.entries.filter (fun p => ¬ now - p.2.lastAccessed > 3600000),
      currentSize := c.currentSize - (expired.map (fun p => p.2.size)).sum }

/-- The cache the richer variant constructs: `new LRUCache(CONFIG.MAX_CACHE_SIZE)`. -/
def initCache : LRUCache := { maxSize := MAX_CACHE_SIZE, currentSize := 0, entries := [] }

/-- States reachable from the empty cache by the public operations
(lookup, insert, eviction, periodic sweep). An `add` whose eviction loop
never returns produces no successor state. -/
inductive CacheReach : LRUCache → Prop where
  | init : CacheReach initCache
  | find (c : LRUCache) (k : String) (now : Nat) :
      CacheReach c → CacheReach (c.find k now).2
  | add (c : LRUCache) (data : List Nat) (url : String) (now : Nat)
      (o : AddOutcome) (c' : LRUCache) :
      CacheReach c → c.add data url now = some (o, c') → CacheReach c'
  | removeOldest (c : LRUCache) :
      CacheReach c → CacheReach (c.removeOldest).1
  | cleanup (c : LRUCache) (now : Nat) :
      CacheReach c → CacheReach (c.cleanupCache now)

/-! ## List-variant LRU cache (`LRUCache` in src/proxy_server.js)

The simple variant keeps the cache as a singly linked list of
`CacheElement` nodes, head first; `add` prepends. The per-node byte size is
a caller-supplied argument (the pipeline passes `responseData.length`, the
body length alone). -/

/-- A node of the linked-list cache of proxy_server.js (`next` pointers are
the list structure). -/
structure CacheElementL where
  url : String
  data : List Nat
  size : Int
  lruTimeTrack : Nat
deriving Repr, DecidableEq

/-- The linked-list cache: `head` (head-first node list) and `currentSize`.
The capacity is the global `MAX_CACHE_SIZE`. -/
structure LRUCacheL where
  currentSize : Int
  head : List CacheElementL
deriving Repr, DecidableEq

/-- `find(url)` of the list variant: walk from the head, refresh
`lruTimeTrack` on the first node whose `url` matches, return it. -/
def findListNodes : List CacheElementL → String → Nat →
    Option CacheElementL × List CacheElementL
  | [], _, _ => (none, [])
  | e :: rest, u, now =>
      if e.url = u then
        (some { e with lruTimeTrack := now }, { e with lruTimeTrack := now } :: rest)
      else
        let r := findListNodes rest u now
        (r.1, e :: r.2)

def LRUCacheL.find (c : LRUCacheL) (u : String) (now : Nat) :
    Option CacheElementL × LRUCacheL :=
  let r := findListNodes c.head u now
  (r.1, { c with head := r.2 })

/-- One step of the scan of the list variant's `removeOldest`. The
accumulator is `(bestIdx, bestNode, curIdx)`: a node with a strictly
smaller `lruTimeTrack` than the current best replaces it. -/
def scanStepL (acc : Nat × CacheElementL × Nat) (e : CacheElementL) :
    Nat × CacheElementL × Nat :=
  if e.lruTimeTrack < acc.2.1.lruTimeTrack then (acc.2.2, e, acc.2.2 + 1)
  else (acc.1, acc.2.1, acc.2.2 + 1)

/-- The scan of the list variant's `removeOldest`: `oldest` starts at the
head and every later node with a strictly smaller `lruTimeTrack` replaces
it, so the first node (in list order) with the minimal stamp wins. Returns
the winning index and node. -/
def scanOldestIdx (h : CacheElementL) (t : List CacheElementL) :
    Nat × CacheElementL :=
  ((t.foldl scanStepL (0, h, 1)).1, (t.foldl scanStepL (0, h, 1)).2.1)

/-- `removeOldest()` of the list variant: unlink the scanned node and
subtract its size. On an empty list nothing happens. -/
def LRUCacheL.removeOldest (c : LRUCacheL) : LRUCacheL × Option CacheElementL :=
  match c.head with
  | [] => (c, none)
  | h :: t =>
      ({ currentSize := c.currentSize - (scanOldestIdx h t).2.size,
         head := (h :: t).eraseIdx (scanOldestIdx h t).1 },
        some (scanOldestIdx h t).2)

/-- The eviction `while` loop of the list variant's `add`; fuel and `none`
play the same role as in `evictLoop`. -/
def evictLoopL (size : Int) : Nat → LRUCacheL → Option LRUCacheL
  | 0, _ => none
  | fuel + 1, c =>
      if c.currentSize + size > MAX_CACHE_SIZE then
        evictLoopL size fuel (c.removeOldest).1
      else some c

/-- `add(url, data, size)` of proxy_server.js: the guard compares the
caller-supplied `size` against `MAX_ELEMENT_SIZE`, the new node is prepended
(an existing node with the same url is NOT removed), and `size` is added to
the total. -/
def LRUCacheL.add (c : LRUCacheL) (url : String) (data : List Nat)
    (size : Int) (now : Nat) : Option (Bool × LRUCacheL) :=
  if size > MAX_ELEMENT_SIZE then some (false, c)
  else
    match evictLoopL size (c.head.length + 1) c with
    | none => none
    | some c' =>
        some (true,
          { currentSize := c'.currentSize + size,
            head := { url := url, data := data, size := size,
                      lruTimeTrack := now } :: c'.head })

def initCacheL : LRUCacheL := { currentSize := 0, head := [] }

/-! ## Semaphore (both variants; part_001 adds the timeout path)

Waiters are identified by the order in which they were queued: `nextId` is a
ghost arrival counter, `queue` holds the queued waiters' ids in JS array
order (`push` at the back, `shift` from the front). -/

/-- A `ProxyError` of part_001 (plain errors have no `statusCode`). -/
structure PError where
  message : String
  statusCode : Option Nat
deriving Repr, DecidableEq

/-- The error `acquire` rejects with on timeout:
`new ProxyError('Connection limit reached', 503)`. -/
def connLimitError : PError := { message := "Connection limit reached", statusCode := some 503 }

/-- JS `error.statusCode || 500` (`undefined` and `0` are falsy). -/
def jsOrStatus (o : Option Nat) : Nat :=
  match o with
  | some c => if c = 0 then 500 else c
  | none => 500

structure Semaphore where
  max : Int
  count : Int
  queue : List Nat
  nextId : Nat
deriving Repr, DecidableEq

inductive AcquireStep where
  | admitted
  | queued (w : Nat)
deriving Repr, DecidableEq

/-- `acquire()`: admit immediately while `count < max`, otherwise append the
waiter to the queue. -/
def Semaphore.acquire (s : Semaphore) : AcquireStep × Semaphore :=
  if s.count < s.max then (.admitted, { s with count := s.count + 1 })
  else (.queued s.nextId,
    { s with queue := s.queue ++ [s.nextId], nextId := s.nextId + 1 })

/-- The timeout callback inside part_001's `acquire`. The callback runs
`this.queue.indexOf(resolve)`, but what `acquire` pushed onto the queue is
the wrapper closure `() => { clearTimeout(timeoutId); resolve(true); }`,
never the bare `resolve`; `indexOf` uses strict equality, so it always
returns `-1` and the guarded `splice` is dead code. The callback therefore
leaves the queue unchanged and only rejects the waiter's promise with
`connLimitError`. (The argument names the waiter whose timer fired; a
timer can still fire only while its waiter has not been admitted, since
admission runs `clearTimeout`.) -/
def Semaphore.timeoutFire (s : Semaphore) (_w : Nat) : Semaphore × Option PError :=
  (s, some connLimitError)

/-- `release()`: hand the slot to the front waiter if any (count unchanged),
otherwise decrement `count`. Returns the admitted waiter, if any. -/
def Semaphore.release (s : Semaphore) : Option Nat × Semaphore :=
  match s.queue with
  | [] => (none, { s with count := s.count - 1 })
  | w :: rest => (some w, { s with queue := rest })

def initSemaphore (max : Int) : Semaphore :=
  { max := max, count := 0, queue := [], nextId := 0 }

/-- States reachable from `new Semaphore(max)` by acquire, timeout firing,
and release. -/
inductive SemReach (max : Int) : Semaphore → Prop where
  | init : SemReach max (initSemaphore max)
  | acquire (s : Semaphore) : SemReach max s → SemReach max (s.acquire).2
  | timeout (s : Semaphore) (w : Nat) :
      SemReach max s → SemReach max (s.timeoutFire w).1
  | release (s : Semaphore) : SemReach max s → SemReach max (s.release).2

/-! ## Outbound fetcher (`RequestHandler` in src/unnamed/part_001)

One upstream attempt either fails at the transport level (the `proxyReq`
`error` event), times out, or yields a status and a body. The environment
is an oracle giving the outcome of each attempt, indexed by `retryCount`.
The per-chunk accumulation `totalSize > CONFIG.MAX_BYTES` rejects exactly
the bodies whose total length exceeds `MAX_BYTES`, which is how it is
modelled here. -/

inductive UpstreamOutcome where
  | transportError (msg : String)
  | timeout
  | response (status : Nat) (body : List Nat)
deriving Repr, DecidableEq

structure FetchResult where
  statusCode : Nat
  data : List Nat
deriving Repr, DecidableEq

/-- `makeRequest(options, retryCount)`: a transport error retries while
`retryCount < CONFIG.MAX_RETRIES` and otherwise rejects with the raw error
(no `statusCode`); a timeout rejects with 504; an oversize body rejects with
413; otherwise the response is resolved as-is. -/
def makeRequest (oracle : Nat → UpstreamOutcome) (retryCount : Nat) :
    Except PError FetchResult :=
  match oracle retryCount with
  | .transportError msg =>
      if h : retryCount < MAX_RETRIES then makeRequest oracle (retryCount + 1)
      else .error { message := msg, statusCode := none }
  | .timeout => .error { message := "Request timeout", statusCode := some 504 }
  | .response status body =>
      if (body.length : Int) > MAX_BYTES then
        .error { message := "Response too large", statusCode := some 413 }
      else .ok { statusCode := status, data := body }
termination_by MAX_RETRIES - retryCount
decreasing_by simp only [MAX_RETRIES] at *; omega

/-- `RequestHandler.handleRequest`: runs `makeRequest` from `retryCount = 0`
and wraps ANY rejection into `new ProxyError(error.message, 502)`. -/
def requestHandlerFetch (oracle : Nat → UpstreamOutcome) :
    Except PError FetchResult :=
  match makeRequest oracle 0 with
  | .ok r => .ok r
  | .error e => .error { message := e.message, statusCode := some 502 }

/-! ## Response values and the two request pipelines -/

inductive RespBody where
  | bytes (b : List Nat)
  | page (s : String)
deriving Repr, DecidableEq

/-- What a pipeline writes back: status, the explicitly set Content-Type
header if any (`none` means the upstream headers are passed through),
and the body. -/
structure Resp where
  status : Nat
  contentType : Option String
  body : RespBody
deriving Repr, DecidableEq

/-- The `messages[statusCode].content` table of `sendErrorResponse`. -/
def errorPage (status : Nat) : String :=
  if status = 400 then
    "<HTML><HEAD><TITLE>400 Bad Request</TITLE></HEAD>\n<BODY><H1>400 Bad Request</H1>\n</BODY></HTML>"
  else if status = 403 then
    "<HTML><HEAD><TITLE>403 Forbidden</TITLE></HEAD>\n<BODY><H1>403 Forbidden</H1><br>Permission Denied\n</BODY></HTML>"
  else if status = 404 then
    "<HTML><HEAD><TITLE>404 Not Found</TITLE></HEAD>\n<BODY><H1>404 Not Found</H1>\n</BODY></HTML>"
  else if status = 500 then
    "<HTML><HEAD><TITLE>500 Internal Server Error</TITLE></HEAD>\n<BODY><H1>500 Internal Server Error</H1>\n</BODY></HTML>"
  else if status = 501 then
    "<HTML><HEAD><TITLE>501 Not Implemented</TITLE></HEAD>\n<BODY><H1>501 Not Implemented</H1>\n</BODY></HTML>"
  else if status = 505 then
    "<HTML><HEAD><TITLE>505 HTTP Version Not Supported</TITLE></HEAD>\n<BODY><H1>505 HTTP Version Not Supported</H1>\n</BODY></HTML>"
  else ""

/-- `sendErrorResponse(res, statusCode)` on the HTTP path: writes the
canonical HTML page with `Content-Type: text/html`. -/
def errorRespSimple (status : Nat) : Resp :=
  { status := status, contentType := some "text/html", body := .page (errorPage status) }

/-- `checkHTTPVersion`. -/
def checkHTTPVersion (version : String) : Bool :=
  version = "1.0" || version = "1.1"

/-- The fields of node's `url.parse` result that the simple pipeline
consults (the URL parser itself is the external library). -/
structure UrlParts where
  protocol : Option String
  hostname : Option String
deriving Repr, DecidableEq

/-- JS truthiness of a string-or-undefined value (`undefined` and `""` are
falsy), as used by `if (!requestUrl.hostname || !requestUrl.protocol)`. -/
def jsTruthy (o : Option String) : Bool :=
  match o with
  | some s => s ≠ ""
  | none => false

/-- An incoming HTTP request as the pipelines see it. -/
structure ReqS where
  url : String
  method : String
  httpVersion : String
deriving Repr, DecidableEq

/-- `handleRequest` of src/proxy_server.js after admission (simple variant):
method check (501), version check (505), parsed-URL check (400), cache
lookup keyed by the RAW `req.url`; a hit is written as a synthetic 200 with
`Content-Type: text/html` and the cached bytes; on a miss a transport error
becomes a 500 page, and a fetched response is cached unconditionally —
`cache.add(req.url, responseData, responseData.length)`, body length only —
then echoed with the upstream status and headers. `none` models the add
loop never returning. -/
def handleRequestSimple (c : LRUCacheL) (req : ReqS) (parts : UrlParts)
    (fetch : Except String (Nat × List Nat)) (now : Nat) :
    Option (Resp × LRUCacheL) :=
  if req.method ≠ "GET" then some (errorRespSimple 501, c)
  else if ¬ checkHTTPVersion req.httpVersion then some (errorRespSimple 505, c)
  else if ¬ (jsTruthy parts.hostname && jsTruthy parts.protocol) then
    some (errorRespSimple 400, c)
  else
    match c.find req.url now with
    | (some e, c') =>
        some ({ status := 200, contentType := some "text/html",
                body := .bytes e.data }, c')
    | (none, c') =>
        match fetch with
        | .error _ => some (errorRespSimple 500, c')
        | .ok (st, body) =>
            match c'.add req.url body (body.length : Int) now with
            | none => none
            | some (_, c'') =>
                some ({ status := st, contentType := none, body := .bytes body }, c'')

/-- The error response of part_001's `ProxyServer.handleRequest` catch
block: `res.writeHead(error.statusCode || 500, text/plain)`,
body `Error: ${error.message}`. -/
def errorRespRich (e : PError) : Resp :=
  { status := jsOrStatus e.statusCode, contentType := some "text/plain",
    body := .page ("Error: " ++ e.message) }

/-- `ProxyServer.handleRequest` of part_001 after admission: the cache key
is `` `${req.method} ${req.url}` ``; a hit is written as a synthetic 200
with `Content-Type: application/octet-stream` and the cached bytes; on a
miss the fetch either throws (caught as `errorRespRich`) or yields a
response that is cached ONLY when its status is exactly 200, then echoed
with the upstream status and headers. An admission rejection (`acq` error)
is caught the same way. `none` models the add loop never returning. -/
def handleRequestRich (c : LRUCache) (acq : Except PError Unit)
    (method u : String) (fetch : Except PError FetchResult) (now : Nat) :
    Option (Resp × LRUCache) :=
  match acq with
  | .error e => some (errorRespRich e, c)
  | .ok _ =>
      match c.find (method ++ " " ++ u) now with
      | (some e, c') =>
          some ({ status := 200, contentType := some "application/octet-stream",
                  body := .bytes e.data }, c')
      | (none, c') =>
          match fetch with
          | .error e => some (errorRespRich e, c')
          | .ok r =>
              if r.statusCode = 200 then
                match c'.add r.data (method ++ " " ++ u) now with
                | none => none
                | some (_, c'') =>
                    some ({ status := r.statusCode, contentType := none,
                            body := .bytes r.data }, c'')
              else
                some ({ status := r.statusCode, contentType := none,
                        body := .bytes r.data }, c')

/-! ## Basic lemmas about the cache operations -/

theorem find_miss {c : LRUCache} {k : String} {now : Nat}
    (h : (c.find k now).1 = none) : c.find k now = (none, c) := by
  unfold LRUCache.find at *
  cases hl : lookupEntry c.entries k with
  | none => simp
  | some e => rw [hl] at h; simp at h

theorem findListNodes_miss {l : List CacheElementL} {u : String} {now : Nat}
    (h : (findListNodes l u now).1 = none) : findListNodes l u now = (none, l) := by
  induction l with
  | nil => rfl
  | cons e rest ih =>
      by_cases he : e.url = u
      · rw [findListNodes, if_pos he] at h; simp at h
      · rw [findListNodes, if_neg he] at h ⊢
        simp only at h ⊢
        rw [ih h]

theorem findL_miss {c : LRUCacheL} {u : String} {now : Nat}
    (h : (c.find u now).1 = none) : c.find u now = (none, c) := by
  unfold LRUCacheL.find at *
  simp only at h ⊢
  rw [findListNodes_miss h]

/-- The three validation checks of the simple pipeline pass. -/
theorem handleRequestSimple_validated (c : LRUCacheL) (req : ReqS)
    (parts : UrlParts) (fetch : Except String (Nat × List Nat)) (now : Nat)
    (hm : req.method = "GET") (hv : checkHTTPVersion req.httpVersion = true)
    (hh : jsTruthy parts.hostname = true) (hp : jsTruthy parts.protocol = true) :
    handleRequestSimple c req parts fetch now =
      match c.find req.url now with
      | (some e, c') =>
          some ({ status := 200, contentType := some "text/html",
                  body := .bytes e.data }, c')
      | (none, c') =>
          match fetch with
          | .error _ => some (errorRespSimple 500, c')
          | .ok (st, body) =>
              match c'.add req.url body (body.length : Int) now with
              | none => none
              | some (_, c'') =>
                  some ({ status := st, contentType := none,
                          body := .bytes body }, c'') := by
  unfold handleRequestSimple
  rw [hm, hv, hh, hp]
  simp

/-! ## The cache size invariant (Claim C1) -/

/-- Every stored entry has a nonnegative recorded size within the per-entry
cap. -/
def EntriesBound (c : LRUCache) : Prop :=
  ∀ p ∈ c.entries, 0 ≤ p.2.size ∧ p.2.size ≤ MAX_ELEMENT_SIZE

/-- The inductive invariant: the capacity is the configured constant, the
running total is within capacity, and every entry is within the per-entry
cap. -/
def CacheInv (c : LRUCache) : Prop :=
  c.maxSize = MAX_CACHE_SIZE ∧ c.currentSize ≤ c.maxSize ∧ EntriesBound c

theorem lookupEntry_mem {entries : List (String × CacheElement)} {k : String}
    {e : CacheElement} (h : lookupEntry entries k = some e) : (k, e) ∈ entries := by
  unfold lookupEntry at h
  cases hf : entries.find? (fun p => p.1 = k) with
  | none => rw [hf] at h; cases h
  | some p =>
      rw [hf] at h
      simp only [Option.map_some'] at h
      have hmem := List.mem_of_find?_eq_some hf
      have hkey : p.1 = k := by simpa using List.find?_some hf
      cases p with
      | mk a b =>
          cases h
          cases hkey
          exact hmem

theorem updateAccess_size (e : CacheElement) (now : Nat) :
    (e.updateAccess now).size = e.size := rfl

theorem find_inv {c : LRUCache} {k : String} {now : Nat} (h : CacheInv c) :
    CacheInv (c.find k now).2 := by
  unfold LRUCache.find
  cases hl : lookupEntry c.entries k with
  | none => simpa using h
  | some e =>
      obtain ⟨h1, h2, h3⟩ := h
      refine ⟨h1, h2, ?_⟩
      intro p hp
      unfold setExisting at hp
      rw [List.mem_map] at hp
      obtain ⟨q, hq, hpq⟩ := hp
      by_cases hqk : q.1 = k
      · rw [if_pos hqk] at hpq
        subst hpq
        exact h3 (k, e) (lookupEntry_mem hl)
      · rw [if_neg hqk] at hpq
        subst hpq
        exact h3 q hq

theorem removeOldest_maxSize (c : LRUCache) :
    (c.removeOldest).1.maxSize = c.maxSize := by
  unfold LRUCache.removeOldest
  repeat' split
  all_goals rfl

theorem removeOldest_entries_mem {c : LRUCache} {p : String × CacheElement}
    (hp : p ∈ (c.removeOldest).1.entries) : p ∈ c.entries := by
  unfold LRUCache.removeOldest at hp
  repeat' split at hp
  any_goals exact hp
  exact (List.eraseP_sublist _).mem hp

theorem removeOldest_size_le {c : LRUCache} (hB : EntriesBound c) :
    (c.removeOldest).1.currentSize ≤ c.currentSize := by
  unfold LRUCache.removeOldest
  by_cases he : c.entries.isEmpty
  · rw [if_pos he]
  · rw [if_neg he]
    cases hscan : removeOldestScan c.entries with
    | none => exact le_refl _
    | some p =>
        cases p with
        | mk k t =>
            dsimp only
            by_cases hk : k = ""
            · rw [if_pos hk]
            · rw [if_neg hk]
              cases hl : lookupEntry c.entries k with
              | none => exact le_refl _
              | some e =>
                  have h0 : 0 ≤ e.size := (hB (k, e) (lookupEntry_mem hl)).1
                  simp only
                  omega

theorem removeOldest_inv {c : LRUCache} (h : CacheInv c) :
    CacheInv (c.removeOldest).1 := by
  obtain ⟨h1, h2, h3⟩ := h
  refine ⟨(removeOldest_maxSize c).trans h1, ?_, ?_⟩
  · calc (c.removeOldest).1.currentSize ≤ c.currentSize := removeOldest_size_le h3
      _ ≤ c.maxSize := h2
      _ = (c.removeOldest).1.maxSize := (removeOldest_maxSize c).symm
  · intro p hp
    exact h3 p (removeOldest_entries_mem hp)

theorem evictLoop_inv {size : Int} :
    ∀ (fuel : Nat) (c c' : LRUCache), CacheInv c →
      evictLoop size fuel c = some c' →
      CacheInv c' ∧ c'.currentSize + size ≤ c'.maxSize := by
  intro fuel
  induction fuel with
  | zero => intro c c' _ h; rw [evictLoop] at h; cases h
  | succ n ih =>
      intro c c' hc h
      rw [evictLoop] at h
      by_cases hcond : c.currentSize + size > c.maxSize
      · rw [if_pos hcond] at h
        exact ih _ _ (removeOldest_inv hc) h
      · rw [if_neg hcond] at h
        cases h
        exact ⟨hc, not_lt.1 hcond⟩

theorem elemSize_nonneg (data : List Nat) (url : String) : 0 ≤ elemSize data url :=
  Int.add_nonneg (Int.natCast_nonneg _) (Int.natCast_nonneg _)

theorem mapSet_mem {l : List (String × CacheElement)} {k : String}
    {e : CacheElement} {p : String × CacheElement} (hp : p ∈ mapSet l k e) :
    p ∈ l ∨ p = (k, e) := by
  unfold mapSet at hp
  by_cases hs : (l.find? (fun p => p.1 = k)).isSome
  · rw [if_pos hs] at hp
    unfold setExisting at hp
    rw [List.mem_map] at hp
    obtain ⟨q, hq, hpq⟩ := hp
    by_cases hqk : q.1 = k
    · rw [if_pos hqk] at hpq; exact Or.inr hpq.symm
    · rw [if_neg hqk] at hpq; exact Or.inl (hpq ▸ hq)
  · rw [if_neg hs] at hp
    rcases List.mem_append.1 hp with h | h
    · exact Or.inl h
    · rcases List.mem_singleton.1 h with rfl
      exact Or.inr rfl

theorem add_inv {c : LRUCache} {data : List Nat} {url : String} {now : Nat}
    {o : AddOutcome} {c' : LRUCache} (h : CacheInv c)
    (ha : c.add data url now = some (o, c')) : CacheInv c' := by
  unfold LRUCache.add at ha
  by_cases hsz : elemSize data url > MAX_ELEMENT_SIZE
  · rw [if_pos hsz] at ha
    obtain ⟨h1, h2⟩ := Prod.mk.injEq .. ▸ Option.some.inj ha
    exact h2 ▸ h
  · rw [if_neg hsz] at ha
    cases hev : evictLoop (elemSize data url) (c.entries.length + 1) c with
    | none => rw [hev] at ha; cases ha
    | some c1 =>
        rw [hev] at ha
        obtain ⟨h1, h2⟩ := Prod.mk.injEq .. ▸ Option.some.inj ha
        obtain ⟨⟨hi1, hi2, hi3⟩, hbound⟩ := evictLoop_inv _ _ _ h hev
        subst h2
        refine ⟨hi1, hbound, ?_⟩
        intro p hp
        rcases mapSet_mem hp with hmem | rfl
        · exact hi3 p hmem
        · exact ⟨elemSize_nonneg data url, not_lt.1 hsz⟩

theorem cleanup_inv {c : LRUCache} {now : Nat} (h : CacheInv c) :
    CacheInv (c.cleanupCache now) := by
  obtain ⟨h1, h2, h3⟩ := h
  unfold LRUCache.cleanupCache
  refine ⟨h1, ?_, ?_⟩
  · have hsum : 0 ≤ ((c.entries.filter
        (fun p => now - p.2.lastAccessed > 3600000)).map (fun p => p.2.size)).sum := by
      apply List.sum_nonneg
      intro x hx
      rw [List.mem_map] at hx
      obtain ⟨p, hp, rfl⟩ := hx
      exact (h3 p (List.mem_of_mem_filter hp)).1
    calc c.currentSize - _ ≤ c.currentSize := sub_le_self _ hsum
      _ ≤ c.maxSize := h2
  · intro p hp
    exact h3 p (List.mem_of_mem_filter hp)

/-! ## Claim C1 -/

/-- Claim C1: starting from the empty cache, after every public operation
that returns (lookup, insert, eviction, periodic sweep) the running total
stays within `MAX_CACHE_SIZE` and every stored entry's recorded size is
within `MAX_ELEMENT_SIZE`. (An insert whose eviction loop never returns
contributes no state, matching "when each operation returns".) -/
theorem c1_cache_bounds (c : LRUCache) (h : CacheReach c) :
    c.currentSize ≤ MAX_CACHE_SIZE
    ∧ ∀ p ∈ c.entries, p.2.size ≤ MAX_ELEMENT_SIZE := by
  have hinv : CacheInv c := by
    induction h with
    | init => exact ⟨rfl, by decide, fun p hp => by cases hp⟩
    | find c k now _ ih => exact find_inv ih
    | add c data url now o c' _ ha ih => exact add_inv ih ha
    | removeOldest c _ ih => exact removeOldest_inv ih
    | cleanup c now _ ih => exact cleanup_inv ih
  obtain ⟨h1, h2, h3⟩ := hinv
  exact ⟨h1 ▸ h2, fun p hp => (h3 p hp).2⟩

/-- Witness for C1 at the initial (empty) cache. -/
theorem c1_cache_bounds_witness :
    initCache.currentSize ≤ MAX_CACHE_SIZE
    ∧ ∀ p ∈ initCache.entries, p.2.size ≤ MAX_ELEMENT_SIZE :=
  c1_cache_bounds initCache CacheReach.init

/-! ## The admission gate invariant (Claim C2) -/

/-- Inductive invariant for the semaphore: the configured bound is kept in
`max`, the active count never exceeds it, the queue is non-empty only at
the bound, and the queue lists waiters in strictly increasing arrival
order, all below the arrival counter. -/
def SemInv (max : Int) (s : Semaphore) : Prop :=
  s.max = max ∧ s.count ≤ s.max ∧ (s.queue ≠ [] → s.count = s.max)
  ∧ s.queue.Pairwise (· < ·) ∧ ∀ w ∈ s.queue, w < s.nextId

theorem acquire_inv {max : Int} {s : Semaphore} (h : SemInv max s) :
    SemInv max (s.acquire).2 := by
  obtain ⟨h1, h2, h3, h4, h5⟩ := h
  unfold Semaphore.acquire
  by_cases hc : s.count < s.max
  · rw [if_pos hc]
    refine ⟨h1, ?_, ?_, h4, h5⟩
    · show s.count + 1 ≤ s.max
      omega
    · intro hq
      exact absurd (h3 hq) (ne_of_lt hc)
  · rw [if_neg hc]
    have heq : s.count = s.max := le_antisymm h2 (not_lt.1 hc)
    refine ⟨h1, h2, fun _ => heq, ?_, ?_⟩
    · rw [List.pairwise_append]
      refine ⟨h4, List.pairwise_singleton .., ?_⟩
      intro a ha b hb
      rw [List.mem_singleton] at hb
      subst hb
      exact h5 a ha
    · intro w hw
      show w < s.nextId + 1
      rcases List.mem_append.1 hw with hmem | hmem
      · have := h5 w hmem; omega
      · rw [List.mem_singleton] at hmem; omega

theorem timeout_inv {max : Int} {s : Semaphore} {w : Nat} (h : SemInv max s) :
    SemInv max (s.timeoutFire w).1 := h

theorem release_inv {max : Int} {s : Semaphore} (h : SemInv max s) :
    SemInv max (s.release).2 := by
  obtain ⟨h1, h2, h3, h4, h5⟩ := h
  unfold Semaphore.release
  cases hq : s.queue with
  | nil =>
      dsimp only
      refine ⟨h1, ?_, ?_, List.Pairwise.nil, ?_⟩
      · show s.count - 1 ≤ s.max
        omega
      · intro hmm; exact absurd rfl hmm
      · intro x hx; cases hx
  | cons a rest =>
      dsimp only
      have hcnt : s.count = s.max := h3 (by rw [hq]; exact List.cons_ne_nil a rest)
      refine ⟨h1, h2, fun _ => hcnt, ?_, ?_⟩
      · exact (List.pairwise_cons.1 (hq ▸ h4)).2
      · intro x hx
        exact h5 x (by rw [hq]; exact List.mem_cons_of_mem a hx)

/-! ## Claim C2 -/

/-- Claim C2: from the initial state, after any sequence of acquires,
acquire-timeouts and releases, the active count never exceeds the
configured maximum, the waiter queue is non-empty only when the count
equals the maximum, and the queue keeps waiters in arrival order with
`release` always admitting the earliest-arrived waiter still queued. -/
theorem c2_semaphore_fifo_bounds (max : Int) (hmax : 0 ≤ max) (s : Semaphore)
    (h : SemReach max s) :
    s.count ≤ s.max
    ∧ (s.queue ≠ [] → s.count = s.max)
    ∧ s.queue.Pairwise (· < ·)
    ∧ (∀ w₀ w, (s.release).1 = some w₀ → w ∈ s.queue → w₀ ≤ w) := by
  have hinv : SemInv max s := by
    induction h with
    | init =>
        exact ⟨rfl, hmax, fun hq => absurd rfl hq, List.Pairwise.nil,
          fun x hx => by cases hx⟩
    | acquire s _ ih => exact acquire_inv ih
    | timeout s w _ ih => exact timeout_inv ih
    | release s _ ih => exact release_inv ih
  obtain ⟨h1, h2, h3, h4, h5⟩ := hinv
  refine ⟨h2, h3, h4, ?_⟩
  intro w₀ w hrel hw
  unfold Semaphore.release at hrel
  cases hq : s.queue with
  | nil => rw [hq] at hw; cases hw
  | cons a rest =>
      rw [hq] at hrel
      simp only at hrel
      injection hrel with hrel
      subst hrel
      rw [hq] at hw h4
      rcases List.mem_cons.1 hw with rfl | hmem
      · exact le_refl _
      · exact le_of_lt ((List.pairwise_cons.1 h4).1 w hmem)

/-- Witness for C2 at the reachable state of a one-slot gate whose slot is
taken and whose queue holds waiter 0 (two acquires from the initial
state). -/
theorem c2_semaphore_fifo_bounds_witness :
    ((((initSemaphore 1).acquire).2.acquire).2.count
        ≤ (((initSemaphore 1).acquire).2.acquire).2.max)
    ∧ ((((initSemaphore 1).acquire).2.acquire).2.queue ≠ [] →
        (((initSemaphore 1).acquire).2.acquire).2.count
          = (((initSemaphore 1).acquire).2.acquire).2.max)
    ∧ (((initSemaphore 1).acquire).2.acquire).2.queue.Pairwise (· < ·)
    ∧ (∀ w₀ w, ((((initSemaphore 1).acquire).2.acquire).2.release).1 = some w₀ →
        w ∈ (((initSemaphore 1).acquire).2.acquire).2.queue → w₀ ≤ w) :=
  c2_semaphore_fifo_bounds 1 (by decide) (((initSemaphore 1).acquire).2.acquire).2
    (SemReach.acquire ((initSemaphore 1).acquire).2
      (SemReach.acquire (initSemaphore 1) SemReach.init))

/-! ## Claim C3 -/

/-- Claim C3 (code bug): inserting a key that is already present does NOT
adjust the total by the size delta. Failing input: insert a 5-byte body
under key `"k"` (entry size 6) twice into the empty Map-variant cache. The
map then holds one entry whose recorded sizes sum to 6, yet `currentSize`
is 12 — the full new size was added and the replaced entry's size never
subtracted. The list variant is worse: the same two inserts leave two nodes
carrying the key `"k"`, so keys are not even unique there. -/
theorem c3_replace_overcounts :
    ((initCache.add [0, 0, 0, 0, 0] "k" 0).bind
        (fun p => p.2.add [0, 0, 0, 0, 0] "k" 1)).map
        (fun p => (p.2.currentSize, (p.2.entries.map (fun q => q.2.size)).sum,
          p.2.entries.length))
      = some (12, 6, 1)
    ∧ ((initCacheL.add "k" [0, 0, 0] 3 0).bind
        (fun p => p.2.add "k" [0, 0, 0] 3 1)).map
        (fun p => p.2.head.countP (fun e => e.url = "k"))
      = some 2 := by
  exact ⟨by decide, by decide⟩

/-! ## Eviction-step minimality lemmas (Claim C4; the claim's theorems
follow the C9 machinery below, which its counterexample needs) -/

/-- Specification of the min-scan fold: starting from a candidate
`(k, t)`, the fold yields a candidate that either is the starting one or
comes from the list, is no later than the start, and is no later than any
list entry. -/
theorem scanStep_some (k : String) (t : Nat) (p : String × CacheElement) :
    scanStep (some (k, t)) p
      = if p.2.lastAccessed < t then some (p.1, p.2.lastAccessed)
        else some (k, t) := rfl

theorem scanFold_spec (l : List (String × CacheElement)) :
    ∀ (k : String) (t : Nat),
      ∃ k' t', l.foldl scanStep (some (k, t)) = some (k', t')
        ∧ ((k' = k ∧ t' = t) ∨ ∃ e, (k', e) ∈ l ∧ e.lastAccessed = t')
        ∧ t' ≤ t
        ∧ ∀ p ∈ l, t' ≤ p.2.lastAccessed := by
  induction l with
  | nil =>
      intro k t
      exact ⟨k, t, rfl, Or.inl ⟨rfl, rfl⟩, le_refl t, fun p hp => by cases hp⟩
  | cons p rest ih =>
      intro k t
      rw [List.foldl_cons]
      by_cases hlt : p.2.lastAccessed < t
      · rw [scanStep_some, if_pos hlt]
        obtain ⟨k', t', hf, hsrc, hle, hmin⟩ := ih p.1 p.2.lastAccessed
        refine ⟨k', t', hf, ?_, ?_, ?_⟩
        · rcases hsrc with ⟨hk, ht⟩ | ⟨e, hmem, he⟩
          · exact Or.inr ⟨p.2, by rw [hk]; exact List.mem_cons_self p rest, ht.symm⟩
          · exact Or.inr ⟨e, List.mem_cons_of_mem p hmem, he⟩
        · exact le_of_lt (lt_of_le_of_lt hle hlt)
        · intro q hq
          rcases List.mem_cons.1 hq with rfl | hq
          · exact hle
          · exact hmin q hq
      · rw [scanStep_some, if_neg hlt]
        obtain ⟨k', t', hf, hsrc, hle, hmin⟩ := ih k t
        refine ⟨k', t', hf, ?_, hle, ?_⟩
        · rcases hsrc with h | ⟨e, hmem, he⟩
          · exact Or.inl h
          · exact Or.inr ⟨e, List.mem_cons_of_mem p hmem, he⟩
        · intro q hq
          rcases List.mem_cons.1 hq with rfl | hq
          · exact le_trans hle (not_lt.1 hlt)
          · exact hmin q hq

/-- On a non-empty map the scan returns the key and stamp of an entry whose
`lastAccessed` is minimal. -/
theorem removeOldestScan_spec {entries : List (String × CacheElement)}
    (h : entries ≠ []) :
    ∃ k t, removeOldestScan entries = some (k, t)
      ∧ (∃ e, (k, e) ∈ entries ∧ e.lastAccessed = t)
      ∧ ∀ p ∈ entries, t ≤ p.2.lastAccessed := by
  cases entries with
  | nil => exact absurd rfl h
  | cons p rest =>
      unfold removeOldestScan
      rw [List.foldl_cons]
      rw [show scanStep none p = some (p.1, p.2.lastAccessed) from rfl]
      obtain ⟨k', t', hf, hsrc, hle, hmin⟩ := scanFold_spec rest p.1 p.2.lastAccessed
      refine ⟨k', t', hf, ?_, ?_⟩
      · rcases hsrc with ⟨hk, ht⟩ | ⟨e, hmem, he⟩
        · exact ⟨p.2, by rw [hk]; exact List.mem_cons_self p rest, ht.symm⟩
        · exact ⟨e, List.mem_cons_of_mem p hmem, he⟩
      · intro q hq
        rcases List.mem_cons.1 hq with rfl | hq
        · exact hle
        · exact hmin q hq

/-- In a map whose keys are distinct, two entries under the same key are the
same entry. -/
theorem assoc_unique {l : List (String × CacheElement)}
    (hnd : (l.map Prod.fst).Nodup) {k : String} {a b : CacheElement}
    (ha : (k, a) ∈ l) (hb : (k, b) ∈ l) : a = b := by
  induction l with
  | nil => cases ha
  | cons p rest ih =>
      rw [List.map_cons, List.nodup_cons] at hnd
      rcases List.mem_cons.1 ha with rfl | ha' <;>
        rcases List.mem_cons.1 hb with hb' | hb'
      · cases hb'; rfl
      · exact absurd (List.mem_map_of_mem Prod.fst hb') (by simpa using hnd.1)
      · cases hb'
        exact absurd (List.mem_map_of_mem Prod.fst ha') (by simpa using hnd.1)
      · exact ih hnd.2 ha' hb'

/-- With distinct keys, `cacheMap.get k` returns the entry stored under a
present key. -/
theorem lookupEntry_of_mem {l : List (String × CacheElement)}
    (hnd : (l.map Prod.fst).Nodup) {k : String} {e : CacheElement}
    (hmem : (k, e) ∈ l) : lookupEntry l k = some e := by
  cases hf : l.find? (fun p => p.1 = k) with
  | none =>
      have := List.find?_eq_none.1 hf (k, e) hmem
      simp at this
  | some p =>
      have hpmem := List.mem_of_find?_eq_some hf
      have hpk : p.1 = k := by simpa using List.find?_some hf
      have : p.2 = e := by
        apply assoc_unique hnd _ hmem
        cases p with
        | mk x y => cases hpk; exact hpmem
      unfold lookupEntry
      rw [hf]
      simp only [Option.map_some']
      rw [this]

/-- On a non-empty Map-variant cache whose keys are pairwise distinct and
none of which is the empty string, the eviction step removes exactly one
entry — one whose `lastAccessed` stamp is minimal among all entries at that
moment — deleting it from the map and subtracting its recorded size. -/
theorem removeOldest_minimal_of_keys (c : LRUCache)
    (hne : c.entries ≠ [])
    (hkeys : ∀ p ∈ c.entries, p.1 ≠ "")
    (hnd : (c.entries.map Prod.fst).Nodup) :
    ∃ k e, (k, e) ∈ c.entries
      ∧ c.removeOldest =
          ({ maxSize := c.maxSize, currentSize := c.currentSize - e.size,
             entries := c.entries.eraseP (fun p => decide (p.1 = k)) }, some k)
      ∧ ∀ p ∈ c.entries, e.lastAccessed ≤ p.2.lastAccessed := by
  obtain ⟨k, t, hscan, ⟨e, hmem, het⟩, hmin⟩ := removeOldestScan_spec hne
  have hk : ¬ k = "" := hkeys (k, e) hmem
  have hlook : lookupEntry c.entries k = some e := lookupEntry_of_mem hnd hmem
  refine ⟨k, e, hmem, ?_, ?_⟩
  · unfold LRUCache.removeOldest
    rw [if_neg (by simpa [List.isEmpty_iff] using hne)]
    rw [hscan]
    dsimp only
    rw [if_neg hk, hlook]
  · intro p hp
    rw [het]
    exact hmin p hp

/-- A concrete two-entry Map-variant cache for the C4 witness: key `"b"`
was accessed at 2, key `"a"` at 5. -/
def c4wCache : LRUCache :=
  { maxSize := MAX_CACHE_SIZE, currentSize := 8,
    entries := [("a", CacheElement.make [0, 0] "a" 5),
                ("b", CacheElement.make [0, 0, 0] "b" 2)] }

/-- Removing an element at the position of the middle of a decomposition. -/
theorem eraseIdx_at_length (l1 l2 : List CacheElementL) (a : CacheElementL) :
    (l1 ++ a :: l2).eraseIdx l1.length = l1 ++ l2 := by
  induction l1 with
  | nil => rfl
  | cons x xs ih =>
      rw [List.cons_append, List.length_cons, List.eraseIdx_cons_succ, ih,
        List.cons_append]

theorem scanStepL_eq (bi : Nat) (be : CacheElementL) (j : Nat)
    (e : CacheElementL) :
    scanStepL (bi, be, j) e
      = if e.lruTimeTrack < be.lruTimeTrack then (j, e, j + 1)
        else (bi, be, j + 1) := rfl

/-- Invariant of the index-tracking min-scan fold: processing `r` after the
prefix `l0`, with the current best `be` sitting at index `bi` inside `l0`,
yields a best element sitting at its index inside `l0 ++ r` that is no
later than the incoming best and no later than anything in `r`. -/
theorem scanFoldL_spec (r : List CacheElementL) :
    ∀ (l0 p1 p2 : List CacheElementL) (be : CacheElementL),
      l0 = p1 ++ be :: p2 →
      ∃ (q1 q2 : List CacheElementL) (be' : CacheElementL),
        r.foldl scanStepL (p1.length, be, l0.length)
          = (q1.length, be', (l0 ++ r).length)
        ∧ l0 ++ r = q1 ++ be' :: q2
        ∧ be'.lruTimeTrack ≤ be.lruTimeTrack
        ∧ ∀ x ∈ r, be'.lruTimeTrack ≤ x.lruTimeTrack := by
  induction r with
  | nil =>
      intro l0 p1 p2 be hdec
      refine ⟨p1, p2, be, ?_, ?_, le_refl _, fun x hx => by cases hx⟩
      · rw [List.foldl_nil, List.append_nil]
      · rw [List.append_nil]; exact hdec
  | cons e rest ih =>
      intro l0 p1 p2 be hdec
      rw [List.foldl_cons, scanStepL_eq]
      by_cases hlt : e.lruTimeTrack < be.lruTimeTrack
      · rw [if_pos hlt]
        obtain ⟨q1, q2, be', hfold, hdec', hle', hmin'⟩ :=
          ih (l0 ++ [e]) l0 [] e rfl
        rw [List.length_append, List.length_singleton] at hfold
        refine ⟨q1, q2, be', ?_, ?_, le_of_lt (lt_of_le_of_lt hle' hlt), ?_⟩
        · rw [hfold, List.append_assoc, List.singleton_append]
        · rw [show l0 ++ e :: rest = (l0 ++ [e]) ++ rest from by
            rw [List.append_assoc, List.singleton_append]]
          exact hdec'
        · intro x hx
          rcases List.mem_cons.1 hx with rfl | hx
          · exact hle'
          · exact hmin' x hx
      · rw [if_neg hlt]
        obtain ⟨q1, q2, be', hfold, hdec', hle', hmin'⟩ :=
          ih (l0 ++ [e]) p1 (p2 ++ [e]) be
            (by rw [hdec, List.append_assoc, List.cons_append])
        rw [List.length_append, List.length_singleton] at hfold
        refine ⟨q1, q2, be', ?_, ?_, hle', ?_⟩
        · rw [hfold, List.append_assoc, List.singleton_append]
        · rw [show l0 ++ e :: rest = (l0 ++ [e]) ++ rest from by
            rw [List.append_assoc, List.singleton_append]]
          exact hdec'
        · intro x hx
          rcases List.mem_cons.1 hx with rfl | hx
          · exact le_trans hle' (not_lt.1 hlt)
          · exact hmin' x hx

/-- The list-variant scan finds a node with minimal `lruTimeTrack` together
with its position. -/
theorem scanOldestIdx_spec (h : CacheElementL) (t : List CacheElementL) :
    ∃ q1 q2, h :: t = q1 ++ (scanOldestIdx h t).2 :: q2
      ∧ (scanOldestIdx h t).1 = q1.length
      ∧ ∀ x ∈ h :: t, (scanOldestIdx h t).2.lruTimeTrack ≤ x.lruTimeTrack := by
  obtain ⟨q1, q2, be', hfold, hdec, hle, hmin⟩ :=
    scanFoldL_spec t [h] [] [] h rfl
  rw [show (([] : List CacheElementL)).length = 0 from rfl,
    show ([h] : List CacheElementL).length = 1 from rfl,
    List.singleton_append] at hfold
  have h2 : (scanOldestIdx h t).2 = be' := by
    unfold scanOldestIdx
    rw [hfold]
  have h1 : (scanOldestIdx h t).1 = q1.length := by
    unfold scanOldestIdx
    rw [hfold]
  rw [List.singleton_append] at hdec
  refine ⟨q1, q2, ?_, h1, ?_⟩
  · rw [h2]; exact hdec
  · intro x hx
    rw [h2]
    rcases List.mem_cons.1 hx with rfl | hx
    · exact hle
    · exact hmin x hx

/-- On a non-empty list-variant cache the eviction step unlinks a node
whose `lruTimeTrack` is minimal and subtracts its size. -/
theorem removeOldestL_minimal (c : LRUCacheL) (hne : c.head ≠ []) :
    ∃ e q1 q2, c.head = q1 ++ e :: q2
      ∧ c.removeOldest
          = ({ currentSize := c.currentSize - e.size, head := q1 ++ q2 }, some e)
      ∧ ∀ x ∈ c.head, e.lruTimeTrack ≤ x.lruTimeTrack := by
  obtain ⟨cs, head⟩ := c
  cases head with
  | nil => exact absurd rfl hne
  | cons h t =>
      obtain ⟨q1, q2, hdec, hidx, hmin⟩ := scanOldestIdx_spec h t
      refine ⟨(scanOldestIdx h t).2, q1, q2, hdec, ?_, hmin⟩
      unfold LRUCacheL.removeOldest
      dsimp only
      rw [hidx, show ((h :: t).eraseIdx q1.length) = q1 ++ q2 from by
        rw [hdec, eraseIdx_at_length]]

/-! ## Claim C5 -/

/-- Claim C5 (amended): in the Map variant (part_001) an insert is rejected
— returning `false` with the `Content too large` cache error and leaving
the map and the running total unchanged — exactly when
`size(body) + size(key)` exceeds the per-entry cap. In the list variant
(proxy_server.js) the guard compares the CALLER-supplied size against the
cap, and the pipeline passes the body length alone, so an insert whose body
plus key exceeds the cap can be accepted there. -/
theorem c5_rejection_iff :
    (∀ (c : LRUCache) (data : List Nat) (url : String) (now : Nat),
      (elemSize data url > MAX_ELEMENT_SIZE →
        c.add data url now = some (.tooLarge, c))
      ∧ (∀ o c', c.add data url now = some (o, c') → o = .tooLarge →
          elemSize data url > MAX_ELEMENT_SIZE ∧ c' = c))
    ∧ (∀ (c : LRUCacheL) (url : String) (data : List Nat) (size : Int) (now : Nat),
      (size > MAX_ELEMENT_SIZE → c.add url data size now = some (false, c))
      ∧ (∀ b c', c.add url data size now = some (b, c') → b = false →
          size > MAX_ELEMENT_SIZE ∧ c' = c)) := by
  constructor
  · intro c data url now
    constructor
    · intro h
      unfold LRUCache.add
      simp only [h, if_pos]
    · intro o c' hadd hto
      by_cases hsz : elemSize data url > MAX_ELEMENT_SIZE
      · unfold LRUCache.add at hadd
        rw [if_pos hsz] at hadd
        obtain ⟨h1, h2⟩ := Prod.mk.injEq .. ▸ Option.some.inj hadd
        exact ⟨hsz, h2.symm⟩
      · unfold LRUCache.add at hadd
        rw [if_neg hsz] at hadd
        cases hev : evictLoop (elemSize data url) (c.entries.length + 1) c with
        | none => rw [hev] at hadd; cases hadd
        | some c1 =>
            rw [hev] at hadd
            obtain ⟨h1, h2⟩ := Prod.mk.injEq .. ▸ Option.some.inj hadd
            rw [← h1] at hto
            cases hto
  · intro c url data size now
    constructor
    · intro h
      unfold LRUCacheL.add
      simp only [h, if_pos]
    · intro b c' hadd hb
      by_cases hsz : size > MAX_ELEMENT_SIZE
      · unfold LRUCacheL.add at hadd
        rw [if_pos hsz] at hadd
        obtain ⟨h1, h2⟩ := Prod.mk.injEq .. ▸ Option.some.inj hadd
        exact ⟨hsz, h2.symm⟩
      · unfold LRUCacheL.add at hadd
        rw [if_neg hsz] at hadd
        cases hev : evictLoopL size (c.head.length + 1) c with
        | none => rw [hev] at hadd; cases hadd
        | some c1 =>
            rw [hev] at hadd
            obtain ⟨h1, h2⟩ := Prod.mk.injEq .. ▸ Option.some.inj hadd
            rw [← h1] at hb
            cases hb

/-- Witness for C5: a body of `MAX_ELEMENT_SIZE + 1` zero bytes under the
empty key is rejected by the Map-variant `add`, leaving the empty cache
unchanged. -/
theorem c5_rejection_iff_witness :
    initCache.add (List.replicate 10485761 0) "" 0 = some (.tooLarge, initCache) :=
  (c5_rejection_iff.1 initCache (List.replicate 10485761 0) "" 0).1 (by
    unfold elemSize
    rw [List.length_replicate, show "".utf8ByteSize = 0 from rfl]
    decide)

/-- Claim C5 (counterexample): the list-variant cache, called the way the
proxy_server.js pipeline calls it (`cache.add(req.url, responseData,
responseData.length)`), ACCEPTS an entry whose body is exactly the
per-entry cap and whose key is 10 bytes, although body plus key exceeds the
cap — the claim says such an insert must be rejected. -/
theorem c5_oversize_accepted_list :
    (initCacheL.add "0123456789" (List.replicate 10485760 0)
        ((List.replicate 10485760 0).length : Int) 0).map Prod.fst = some true
    ∧ ((List.replicate 10485760 0).length : Int)
        + ("0123456789".utf8ByteSize : Int) > MAX_ELEMENT_SIZE := by
  constructor
  · rw [List.length_replicate]
    rw [show ((10485760 : Nat) : Int) = (10485760 : Int) from rfl]
    unfold LRUCacheL.add
    rw [if_neg (by decide : ¬ (10485760 : Int) > MAX_ELEMENT_SIZE)]
    rw [show initCacheL.head.length + 1 = 1 from rfl]
    rw [evictLoopL]
    rw [if_neg (by decide : ¬ initCacheL.currentSize + 10485760 > MAX_CACHE_SIZE)]
    rfl
  · rw [List.length_replicate, show "0123456789".utf8ByteSize = 10 from by decide]
    decide

/-! ## Claim C6 -/

/-- Claim C6 (code bug): the timed-out waiter is NOT removed from the
queue. At a one-slot gate whose slot is held, a second `acquire` queues
waiter 0 (count = max); when its timeout fires, the callback rejects with
the `Connection limit reached` ProxyError carrying 503 — surfaced by the
richer pipeline's catch block as response status 503 — but the queue still
holds the waiter: `this.queue.indexOf(resolve)` searches for the bare
`resolve` while the queue holds the pushed wrapper closure, so the guarded
`splice` never runs. The claim's removal requirement is the clear intent of
that dead splice. -/
theorem c6_timeout_queue_unchanged :
    Semaphore.acquire { max := 1, count := 1, queue := [], nextId := 0 }
      = (.queued 0, { max := 1, count := 1, queue := [0], nextId := 1 })
    ∧ Semaphore.timeoutFire { max := 1, count := 1, queue := [0], nextId := 1 } 0
      = ({ max := 1, count := 1, queue := [0], nextId := 1 }, some connLimitError)
    ∧ connLimitError = { message := "Connection limit reached", statusCode := some 503 }
    ∧ (handleRequestRich initCache (.error connLimitError) "GET" "http://x/"
        (.error { message := "x", statusCode := none }) 0).map
        (fun p => p.1.status) = some 503 := by
  exact ⟨by decide, by decide, rfl, by decide⟩

/-! ## Claim C7 -/

/-- When every attempt up to `MAX_RETRIES` fails at the transport level,
the wrapped fetch rejects with the last raw message and status 502. -/
theorem requestHandlerFetch_transport (oracle : Nat → UpstreamOutcome)
    (msgs : Nat → String)
    (h : ∀ k, k ≤ MAX_RETRIES → oracle k = .transportError (msgs k)) :
    requestHandlerFetch oracle
      = .error { message := msgs MAX_RETRIES, statusCode := some 502 } := by
  have hm : makeRequest oracle 0
      = .error { message := msgs 3, statusCode := none } := by
    rw [makeRequest, h 0 (by decide)]
    simp only
    rw [dif_pos (by decide : (0 : Nat) < MAX_RETRIES)]
    rw [makeRequest, h 1 (by decide)]
    simp only
    rw [dif_pos (by decide : (1 : Nat) < MAX_RETRIES)]
    rw [makeRequest, h 2 (by decide)]
    simp only
    rw [dif_pos (by decide : (2 : Nat) < MAX_RETRIES)]
    rw [makeRequest, h 3 (by decide)]
    simp only
    rw [dif_neg (by decide : ¬ (3 : Nat) < MAX_RETRIES)]
  rw [requestHandlerFetch, hm]
  rfl

/-- Claim C7 (amended): in the richer variant, a transport error on attempt
`k < MAX_RETRIES` causes a retry; when all `MAX_RETRIES + 1` attempts fail
at the transport level the fetch rejects and `RequestHandler` wraps the
last raw error into a ProxyError with status 502, which
`ProxyServer.handleRequest` surfaces to the client as response status 502.
In the simple variant (proxy_server.js) there is no retry machinery at all
and a transport error is answered with the canonical 500 page. -/
theorem c7_retry_then_502 :
    (∀ (oracle : Nat → UpstreamOutcome) (msgs : Nat → String),
      (∀ k, k ≤ MAX_RETRIES → oracle k = .transportError (msgs k)) →
      requestHandlerFetch oracle
        = .error { message := msgs MAX_RETRIES, statusCode := some 502 })
    ∧ (∀ (oracle : Nat → UpstreamOutcome) (k : Nat) (msg : String),
      k < MAX_RETRIES → oracle k = .transportError msg →
      makeRequest oracle k = makeRequest oracle (k + 1))
    ∧ (∀ (c : LRUCache) (m u : String) (now : Nat)
        (oracle : Nat → UpstreamOutcome) (msgs : Nat → String),
      (∀ k, k ≤ MAX_RETRIES → oracle k = .transportError (msgs k)) →
      (c.find (m ++ " " ++ u) now).1 = none →
      (handleRequestRich c (.ok ()) m u (requestHandlerFetch oracle) now).map
        (fun p => p.1.status) = some 502)
    ∧ (∀ (c : LRUCacheL) (req : ReqS) (parts : UrlParts) (em : String) (now : Nat),
      req.method = "GET" → checkHTTPVersion req.httpVersion = true →
      jsTruthy parts.hostname = true → jsTruthy parts.protocol = true →
      (c.find req.url now).1 = none →
      (handleRequestSimple c req parts (.error em) now).map (fun p => p.1.status)
        = some 500) := by
  refine ⟨requestHandlerFetch_transport, ?_, ?_, ?_⟩
  · intro oracle k msg hk ho
    rw [makeRequest, ho]
    simp only
    rw [dif_pos hk]
  · intro c m u now oracle msgs h hmiss
    rw [requestHandlerFetch_transport oracle msgs h]
    unfold handleRequestRich
    rw [find_miss hmiss]
    rfl
  · intro c req parts em now hm hv hh hp hmiss
    rw [handleRequestSimple_validated c req parts (.error em) now hm hv hh hp]
    rw [findL_miss hmiss]
    rfl

/-- Witness for C7: with every attempt failing as `ECONNREFUSED`, the
richer fetch surfaces the wrapped 502; the retry step applies at attempt 0;
the richer pipeline on an empty cache answers the exhausted fetch with
status 502; and the simple pipeline on an empty cache answers a transport
error with status 500. -/
theorem c7_retry_then_502_witness :
    requestHandlerFetch (fun _ => .transportError "ECONNREFUSED")
      = .error { message := "ECONNREFUSED", statusCode := some 502 }
    ∧ makeRequest (fun _ => .transportError "ECONNREFUSED") 0
      = makeRequest (fun _ => .transportError "ECONNREFUSED") 1
    ∧ (handleRequestRich initCache (.ok ()) "GET" "http://x/"
        (requestHandlerFetch (fun _ => .transportError "ECONNREFUSED")) 0).map
        (fun p => p.1.status) = some 502
    ∧ (handleRequestSimple initCacheL
        { url := "http://example.com/", method := "GET", httpVersion := "1.1" }
        { protocol := some "http:", hostname := some "example.com" }
        (.error "ECONNREFUSED") 0).map (fun p => p.1.status) = some 500 :=
  ⟨c7_retry_then_502.1 (fun _ => .transportError "ECONNREFUSED") (fun _ => "ECONNREFUSED")
     (fun _ _ => rfl),
   c7_retry_then_502.2.1 (fun _ => .transportError "ECONNREFUSED") 0 "ECONNREFUSED"
     (by decide) rfl,
   c7_retry_then_502.2.2.1 initCache "GET" "http://x/" 0
     (fun _ => .transportError "ECONNREFUSED") (fun _ => "ECONNREFUSED")
     (fun _ _ => rfl) (by decide),
   c7_retry_then_502.2.2.2 initCacheL
     { url := "http://example.com/", method := "GET", httpVersion := "1.1" }
     { protocol := some "http:", hostname := some "example.com" }
     "ECONNREFUSED" 0 rfl rfl rfl rfl rfl⟩

/-- Claim C7 (counterexample): in the simple variant a failed upstream
fetch is answered with status 500, not 502 — there is no retry and no bad
gateway mapping on that path. -/
theorem c7_simple_500 :
    (handleRequestSimple initCacheL
        { url := "http://example.com/", method := "GET", httpVersion := "1.1" }
        { protocol := some "http:", hostname := some "example.com" }
        (.error "ECONNREFUSED") 0).map (fun p => p.1.status) = some 500
    ∧ (500 : Nat) ≠ 502 := by
  exact ⟨by decide, by decide⟩

/-! ## Claim C8 -/

/-- Claim C8 (amended): on a cache hit both pipelines write a synthetic 200
whose body is exactly the cached bytes; the simple variant sets
`Content-Type: text/html`, while the richer variant sets
`Content-Type: application/octet-stream`. -/
theorem c8_hit_responses :
    (∀ (c : LRUCacheL) (req : ReqS) (parts : UrlParts)
        (fetch : Except String (Nat × List Nat)) (now : Nat)
        (e : CacheElementL) (c₂ : LRUCacheL),
      req.method = "GET" → checkHTTPVersion req.httpVersion = true →
      jsTruthy parts.hostname = true → jsTruthy parts.protocol = true →
      c.find req.url now = (some e, c₂) →
      handleRequestSimple c req parts fetch now
        = some ({ status := 200, contentType := some "text/html",
                  body := .bytes e.data }, c₂))
    ∧ (∀ (c : LRUCache) (m u : String) (fetch : Except PError FetchResult)
        (now : Nat) (e : CacheElement) (c₂ : LRUCache),
      c.find (m ++ " " ++ u) now = (some e, c₂) →
      handleRequestRich c (.ok ()) m u fetch now
        = some ({ status := 200, contentType := some "application/octet-stream",
                  body := .bytes e.data }, c₂)) := by
  constructor
  · intro c req parts fetch now e c₂ hm hv hh hp hfind
    rw [handleRequestSimple_validated c req parts fetch now hm hv hh hp, hfind]
  · intro c m u fetch now e c₂ hfind
    unfold handleRequestRich
    rw [hfind]

/-- A one-entry list-variant cache used to witness C8. -/
def c8CacheL : LRUCacheL :=
  { currentSize := 3,
    head := [{ url := "http://e/", data := [1, 2, 3], size := 3, lruTimeTrack := 0 }] }

/-- The same cache after the hit refreshed `lruTimeTrack`. -/
def c8CacheL' : LRUCacheL :=
  { currentSize := 3,
    head := [{ url := "http://e/", data := [1, 2, 3], size := 3, lruTimeTrack := 7 }] }

/-- A one-entry Map-variant cache used to witness C8. -/
def c8CacheM : LRUCache :=
  { maxSize := MAX_CACHE_SIZE, currentSize := 16,
    entries := [("GET http://e/", CacheElement.make [1, 2, 3] "GET http://e/" 0)] }

/-- The same cache after the hit ran `updateAccess`. -/
def c8CacheM' : LRUCache :=
  { maxSize := MAX_CACHE_SIZE, currentSize := 16,
    entries := [("GET http://e/",
      (CacheElement.make [1, 2, 3] "GET http://e/" 0).updateAccess 7)] }

/-- Witness for C8: a one-entry cache in each variant, hit on its key. -/
theorem c8_hit_responses_witness :
    handleRequestSimple c8CacheL
        { url := "http://e/", method := "GET", httpVersion := "1.1" }
        { protocol := some "http:", hostname := some "e" }
        (.error "unused") 7
      = some ({ status := 200, contentType := some "text/html",
                body := .bytes [1, 2, 3] }, c8CacheL')
    ∧ handleRequestRich c8CacheM (.ok ()) "GET" "http://e/"
        (.error { message := "unused", statusCode := none }) 7
      = some ({ status := 200, contentType := some "application/octet-stream",
                body := .bytes [1, 2, 3] }, c8CacheM') :=
  ⟨c8_hit_responses.1 c8CacheL
      { url := "http://e/", method := "GET", httpVersion := "1.1" }
      { protocol := some "http:", hostname := some "e" }
      (.error "unused") 7
      { url := "http://e/", data := [1, 2, 3], size := 3, lruTimeTrack := 7 }
      c8CacheL' rfl rfl rfl rfl (by decide),
   c8_hit_responses.2 c8CacheM "GET" "http://e/"
      (.error { message := "unused", statusCode := none }) 7
      ((CacheElement.make [1, 2, 3] "GET http://e/" 0).updateAccess 7)
      c8CacheM' (by decide)⟩

/-- Claim C8 (counterexample): the richer pipeline answers a cache hit with
`Content-Type: application/octet-stream`, not `text/html` as claimed. The
cache below is reached from empty by one insert of the pipeline's own key. -/
theorem c8_hit_octet_stream :
    ((initCache.add [1, 2, 3] "GET http://e/" 0).bind (fun p =>
        handleRequestRich p.2 (.ok ()) "GET" "http://e/"
          (.error { message := "unused", statusCode := none }) 5)).map
        (fun p => (p.1.status, p.1.contentType)) = some (200, some "application/octet-stream")
    ∧ some "application/octet-stream" ≠ some ("text/html" : String) := by
  exact ⟨by decide, by decide⟩

/-! ## Claim C9: the eviction loop can run forever

The claim argues the `while` loop inside `add` always terminates. Because a
replaced entry's size is never subtracted (see C3), `currentSize` can
exceed the sum of the stored sizes; once the excess is larger than
`MAX_CACHE_SIZE - size`, the loop empties the map and then spins forever on
`removeOldest` calls that do nothing. The concrete run below reaches that
state from the empty cache at the deployed configuration
(`MAX_CACHE_SIZE = 200 MiB`, `MAX_ELEMENT_SIZE = 10 MiB`) with 24 inserts. -/

/-- Run a sequence of `add` operations, propagating divergence. -/
def addSeq (c : LRUCache) : List (List Nat × String × Nat) → Option LRUCache
  | [] => some c
  | (d, u, t) :: rest =>
      match c.add d u t with
      | none => none
      | some (_, c') => addSeq c' rest

theorem addSeq_cons {c c' : LRUCache} {d : List Nat} {u : String} {t : Nat}
    {o : AddOutcome} {ops : List (List Nat × String × Nat)}
    (h : c.add d u t = some (o, c')) :
    addSeq c ((d, u, t) :: ops) = addSeq c' ops := by
  rw [addSeq, h]

theorem addSeq_none {c : LRUCache} {d : List Nat} {u : String} {t : Nat}
    {ops : List (List Nat × String × Nat)} (h : c.add d u t = none) :
    addSeq c ((d, u, t) :: ops) = none := by
  rw [addSeq, h]

theorem MAX_CACHE_SIZE_eq : MAX_CACHE_SIZE = 209715200 := by decide

theorem MAX_ELEMENT_SIZE_eq : MAX_ELEMENT_SIZE = 10485760 := by decide

theorem make_size (data : List Nat) (url : String) (now : Nat) :
    (CacheElement.make data url now).size = elemSize data url := rfl

/-- A body of `MAX_ELEMENT_SIZE - 1` bytes; with the 1-byte key `"k"` its
entry size is exactly `MAX_ELEMENT_SIZE`. -/
def d1 : List Nat := List.replicate 10485759 0

/-- A body that gives entry size 5242880 (5 MiB) with the 2-byte key
`"kk"`. -/
def d2 : List Nat := List.replicate 5242878 0

theorem d1_size : elemSize d1 "k" = 10485760 := by
  rw [elemSize, d1, List.length_replicate, show "k".utf8ByteSize = 1 from by decide]
  decide

theorem d2_size : elemSize d2 "kk" = 5242880 := by
  rw [elemSize, d2, List.length_replicate, show "kk".utf8ByteSize = 2 from by decide]
  decide

/-- `add` when the eviction loop exits immediately. -/
theorem add_fits (c : LRUCache) (data : List Nat) (url : String) (now : Nat)
    (h1 : ¬ elemSize data url > MAX_ELEMENT_SIZE)
    (h2 : ¬ c.currentSize + elemSize data url > c.maxSize) :
    c.add data url now = some (.added,
      { maxSize := c.maxSize,
        currentSize := c.currentSize + elemSize data url,
        entries := mapSet c.entries url (CacheElement.make data url now) }) := by
  unfold LRUCache.add
  rw [if_neg h1, evictLoop, if_neg h2]

theorem mapSet_nil (k : String) (e : CacheElement) : mapSet [] k e = [(k, e)] := rfl

theorem mapSet_replace_single (k : String) (e e' : CacheElement) :
    mapSet [(k, e)] k e' = [(k, e')] := by
  unfold mapSet
  rw [List.find?_cons_of_pos _ (by simp)]
  simp [setExisting]

/-- `add` replacing the single existing entry, no eviction. -/
theorem add_replace_same (M cs : Int) (e : CacheElement) (data : List Nat)
    (k : String) (now : Nat)
    (h1 : ¬ elemSize data k > MAX_ELEMENT_SIZE)
    (h2 : ¬ cs + elemSize data k > M) :
    LRUCache.add ⟨M, cs, [(k, e)]⟩ data k now = some (.added,
      ⟨M, cs + elemSize data k, [(k, CacheElement.make data k now)]⟩) := by
  rw [add_fits ⟨M, cs, [(k, e)]⟩ data k now h1 h2, mapSet_replace_single]

theorem removeOldest_singleton (M cs : Int) (k : String) (e : CacheElement)
    (hk : ¬ k = "") :
    LRUCache.removeOldest ⟨M, cs, [(k, e)]⟩ = (⟨M, cs - e.size, []⟩, some k) := by
  unfold LRUCache.removeOldest
  rw [if_neg (show ¬ (([(k, e)] : List (String × CacheElement)).isEmpty = true)
    from by simp)]
  rw [show removeOldestScan [(k, e)] = some (k, e.lastAccessed) from rfl]
  dsimp only
  rw [if_neg hk]
  rw [show lookupEntry [(k, e)] k = some e from by
    unfold lookupEntry
    rw [List.find?_cons_of_pos _ (by simp)]
    rfl]
  rw [show List.eraseP (fun p => decide (p.1 = k)) [(k, e)] = [] from by
    rw [List.eraseP_cons_of_pos (by simp)]]

theorem evictLoop_one (size : Int) (c : LRUCache) :
    evictLoop size 1 c
      = if c.currentSize + size > c.maxSize then none else some c := by
  show evictLoop size (0 + 1) c = _
  rw [evictLoop]
  by_cases h : c.currentSize + size > c.maxSize
  · rw [if_pos h, if_pos h, evictLoop]
  · rw [if_neg h, if_neg h]

/-- `add` on a one-entry cache that evicts that entry once and then fits. -/
theorem add_evict_one (M cs : Int) (k : String) (e : CacheElement)
    (data : List Nat) (url : String) (now : Nat) (hk : ¬ k = "")
    (h1 : ¬ elemSize data url > MAX_ELEMENT_SIZE)
    (h2 : cs + elemSize data url > M)
    (h3 : ¬ cs - e.size + elemSize data url > M) :
    LRUCache.add ⟨M, cs, [(k, e)]⟩ data url now = some (.added,
      ⟨M, cs - e.size + elemSize data url,
        [(url, CacheElement.make data url now)]⟩) := by
  unfold LRUCache.add
  rw [if_neg h1, evictLoop, if_pos h2, removeOldest_singleton M cs k e hk]
  dsimp only
  rw [show ([(k, e)] : List (String × CacheElement)).length = 1 from rfl]
  rw [evictLoop_one]
  rw [if_neg h3]
  rfl

/-- `add` on a one-entry cache whose single eviction still leaves the loop
condition true: `removeOldest` then runs on the empty map forever. -/
theorem add_evict_stuck (M cs : Int) (k : String) (e : CacheElement)
    (data : List Nat) (url : String) (now : Nat) (hk : ¬ k = "")
    (h1 : ¬ elemSize data url > MAX_ELEMENT_SIZE)
    (h2 : cs + elemSize data url > M)
    (h3 : cs - e.size + elemSize data url > M) :
    LRUCache.add ⟨M, cs, [(k, e)]⟩ data url now = none := by
  unfold LRUCache.add
  rw [if_neg h1, evictLoop, if_pos h2, removeOldest_singleton M cs k e hk]
  dsimp only
  rw [show ([(k, e)] : List (String × CacheElement)).length = 1 from rfl]
  rw [evictLoop_one, if_pos h3]

/-- Adding the same 10485760-byte entry `n` times in a row just keeps
replacing the single entry while growing the total by the full size each
time, as long as the total stays within capacity. -/
theorem fill_ten (d : List Nat) (u : String) (hsz : elemSize d u = 10485760)
    (rest : List (List Nat × String × Nat)) (n : Nat) :
    ∀ cs : Int, cs + 10485760 * (n : Int) ≤ 209715200 →
      addSeq ⟨MAX_CACHE_SIZE, cs, [(u, CacheElement.make d u 0)]⟩
          (List.replicate n (d, u, 0) ++ rest)
        = addSeq ⟨MAX_CACHE_SIZE, cs + 10485760 * (n : Int),
            [(u, CacheElement.make d u 0)]⟩ rest := by
  induction n with
  | zero =>
      intro cs h
      rw [show List.replicate 0 (d, u, (0 : Nat)) = [] from rfl,
        List.nil_append, show ((0 : Nat) : Int) = 0 from rfl, mul_zero, add_zero]
  | succ m ih =>
      intro cs h
      have hfit : ¬ cs + elemSize d u > MAX_CACHE_SIZE := by
        rw [hsz, MAX_CACHE_SIZE_eq]
        push_cast at h
        omega
      rw [List.replicate_succ, List.cons_append]
      rw [addSeq_cons (add_replace_same MAX_CACHE_SIZE cs
        (CacheElement.make d u 0) d u 0 (by rw [hsz]; decide) hfit)]
      rw [hsz]
      rw [ih (cs + 10485760) (by push_cast at h ⊢; omega)]
      have harith : cs + 10485760 + 10485760 * (m : Int)
          = cs + 10485760 * (((m + 1) : Nat) : Int) := by
        push_cast
        ring
      rw [harith]

/-- The operation sequence that makes `add` diverge: 21 inserts of the
10 MiB entry keyed `"k"`, two inserts of the 5 MiB entry keyed `"kk"`,
then one more insert keyed `"k"`. -/
def c9ops : List (List Nat × String × Nat) :=
  List.replicate 21 (d1, "k", 0) ++ [(d2, "kk", 0), (d2, "kk", 0), (d1, "k", 0)]

/-- Claim C9 (refuted): at the deployed configuration the eviction loop
inside insert does NOT always terminate. Running `c9ops` from the empty
cache reaches a state with one 5 MiB entry but `currentSize = 200 MiB`
(phantom bytes from replacements); the final insert evicts the only entry,
is still over capacity, and loops forever on the empty map. -/
theorem c9_insert_diverges : addSeq initCache c9ops = none := by
  have hd1 : ¬ elemSize d1 "k" > MAX_ELEMENT_SIZE := by rw [d1_size]; decide
  have hd2 : ¬ elemSize d2 "kk" > MAX_ELEMENT_SIZE := by rw [d2_size]; decide
  have hsz1 : (CacheElement.make d1 "k" 0).size = 10485760 := by
    rw [make_size, d1_size]
  have hsz2 : (CacheElement.make d2 "kk" 0).size = 5242880 := by
    rw [make_size, d2_size]
  unfold c9ops
  rw [show List.replicate 21 (d1, "k", (0 : Nat))
      = (d1, "k", 0) :: List.replicate 20 (d1, "k", 0) from rfl]
  rw [List.cons_append]
  have step1 : initCache.add d1 "k" 0 = some (.added,
      ⟨MAX_CACHE_SIZE, 10485760, [("k", CacheElement.make d1 "k" 0)]⟩) := by
    rw [add_fits initCache d1 "k" 0 hd1
      (by show ¬ (0 : Int) + elemSize d1 "k" > MAX_CACHE_SIZE; rw [d1_size]; decide)]
    rw [show mapSet initCache.entries "k" (CacheElement.make d1 "k" 0)
        = [("k", CacheElement.make d1 "k" 0)] from rfl]
    rw [show initCache.currentSize + elemSize d1 "k" = 10485760 from by
      rw [d1_size]; decide]
    rfl
  rw [addSeq_cons step1]
  rw [show (20 : Nat) = 19 + 1 from rfl, List.replicate_succ', List.append_assoc]
  rw [fill_ten d1 "k" d1_size _ 19 10485760 (by decide)]
  rw [show (10485760 : Int) + 10485760 * ((19 : Nat) : Int) = 209715200 from by decide]
  rw [List.singleton_append]
  have step21 : LRUCache.add
      ⟨MAX_CACHE_SIZE, 209715200, [("k", CacheElement.make d1 "k" 0)]⟩ d1 "k" 0
      = some (.added,
        ⟨MAX_CACHE_SIZE, 209715200, [("k", CacheElement.make d1 "k" 0)]⟩) := by
    rw [add_evict_one MAX_CACHE_SIZE 209715200 "k" (CacheElement.make d1 "k" 0)
      d1 "k" 0 (by decide) hd1
      (by rw [d1_size, MAX_CACHE_SIZE_eq]; decide)
      (by rw [hsz1, d1_size, MAX_CACHE_SIZE_eq]; decide)]
    rw [hsz1, d1_size]
    norm_num
  rw [addSeq_cons step21]
  have step22 : LRUCache.add
      ⟨MAX_CACHE_SIZE, 209715200, [("k", CacheElement.make d1 "k" 0)]⟩ d2 "kk" 0
      = some (.added,
        ⟨MAX_CACHE_SIZE, 204472320, [("kk", CacheElement.make d2 "kk" 0)]⟩) := by
    rw [add_evict_one MAX_CACHE_SIZE 209715200 "k" (CacheElement.make d1 "k" 0)
      d2 "kk" 0 (by decide) hd2
      (by rw [d2_size, MAX_CACHE_SIZE_eq]; decide)
      (by rw [hsz1, d2_size, MAX_CACHE_SIZE_eq]; decide)]
    rw [hsz1, d2_size]
    norm_num
  rw [addSeq_cons step22]
  have step23 : LRUCache.add
      ⟨MAX_CACHE_SIZE, 204472320, [("kk", CacheElement.make d2 "kk" 0)]⟩ d2 "kk" 0
      = some (.added,
        ⟨MAX_CACHE_SIZE, 209715200, [("kk", CacheElement.make d2 "kk" 0)]⟩) := by
    rw [add_replace_same MAX_CACHE_SIZE 204472320 (CacheElement.make d2 "kk" 0)
      d2 "kk" 0 hd2 (by rw [d2_size, MAX_CACHE_SIZE_eq]; decide)]
    rw [d2_size]
    norm_num
  rw [addSeq_cons step23]
  exact addSeq_none (add_evict_stuck MAX_CACHE_SIZE 209715200 "kk"
    (CacheElement.make d2 "kk" 0) d1 "k" 0 (by decide) hd1
    (by rw [d1_size, MAX_CACHE_SIZE_eq]; decide)
    (by rw [hsz2, d1_size, MAX_CACHE_SIZE_eq]; decide))

/-! ## Claim C4 -/

/-- `removeOldest` on a map whose single entry is keyed `""`: the scan
selects that key, the JS guard `if (oldestKey)` treats it as absent, and
nothing is removed. -/
theorem removeOldest_singleton_empty_key (M cs : Int) (e : CacheElement) :
    LRUCache.removeOldest ⟨M, cs, [("", e)]⟩ = (⟨M, cs, [("", e)]⟩, none) := by
  unfold LRUCache.removeOldest
  rw [if_neg (show ¬ (([("", e)] : List (String × CacheElement)).isEmpty = true)
    from by simp)]
  rw [show removeOldestScan [("", e)] = some ("", e.lastAccessed) from rfl]
  dsimp only
  rw [if_pos rfl]

/-- `add` on a one-entry map keyed `""` that is over capacity: the eviction
loop makes no progress and never returns. -/
theorem add_stuck_empty_key (M cs : Int) (e : CacheElement)
    (data : List Nat) (url : String) (now : Nat)
    (h1 : ¬ elemSize data url > MAX_ELEMENT_SIZE)
    (h2 : cs + elemSize data url > M) :
    LRUCache.add ⟨M, cs, [("", e)]⟩ data url now = none := by
  unfold LRUCache.add
  rw [if_neg h1, evictLoop, if_pos h2, removeOldest_singleton_empty_key]
  dsimp only
  rw [show ([("", e)] : List (String × CacheElement)).length = 1 from rfl]
  rw [evictLoop_one, if_pos h2]

/-- A body of `MAX_ELEMENT_SIZE` bytes; with the empty key its entry size
is exactly `MAX_ELEMENT_SIZE`. -/
def d0 : List Nat := List.replicate 10485760 0

theorem d0_size : elemSize d0 "" = 10485760 := by
  rw [elemSize, d0, List.length_replicate, show "".utf8ByteSize = 0 from rfl]
  decide

/-- 20 inserts of the 10 MiB entry keyed `""`: the first installs it, the
other 19 replace it while inflating `currentSize` to the full capacity. -/
def c4ops : List (List Nat × String × Nat) := List.replicate 20 (d0, "", 0)

/-- The cache state reached by `c4ops`: one 10 MiB entry keyed `""`, with
`currentSize` already at the 200 MiB capacity. -/
def c4full : LRUCache :=
  { maxSize := MAX_CACHE_SIZE, currentSize := 209715200,
    entries := [("", CacheElement.make d0 "" 0)] }

/-- Claim C4 (counterexample): an insert into a full cache whose eviction
steps remove nothing. `c4full` is reached from the empty cache by the 20
public inserts of `c4ops`; inserting the `(d1, "k")` entry there trips the
eviction loop (`currentSize + size > maxSize`), yet the eviction step
leaves the non-empty map untouched — its only (hence least-recently-
accessed) entry is keyed `""`, which the `if (oldestKey)` guard treats as
absent — so no eviction step removes the minimal entry and the insert
never returns. -/
theorem c4_eviction_skips_empty_key :
    addSeq initCache c4ops = some c4full
    ∧ c4full.currentSize + elemSize d1 "k" > c4full.maxSize
    ∧ c4full.entries ≠ []
    ∧ c4full.removeOldest = (c4full, none)
    ∧ c4full.add d1 "k" 0 = none := by
  refine ⟨?_, ?_, List.cons_ne_nil _ _, ?_, ?_⟩
  · unfold c4ops
    rw [show List.replicate 20 (d0, "", (0 : Nat))
        = (d0, "", 0) :: List.replicate 19 (d0, "", 0) from rfl]
    have step1 : initCache.add d0 "" 0 = some (.added,
        ⟨MAX_CACHE_SIZE, 10485760, [("", CacheElement.make d0 "" 0)]⟩) := by
      rw [add_fits initCache d0 "" 0 (by rw [d0_size]; decide)
        (by show ¬ initCache.currentSize + elemSize d0 "" > initCache.maxSize
            rw [d0_size]; decide)]
      rw [show mapSet initCache.entries "" (CacheElement.make d0 "" 0)
          = [("", CacheElement.make d0 "" 0)] from rfl]
      rw [show initCache.currentSize + elemSize d0 "" = 10485760 from by
        rw [d0_size]; decide]
      rfl
    rw [addSeq_cons step1]
    rw [show List.replicate 19 (d0, "", (0 : Nat))
        = List.replicate 19 (d0, "", 0) ++ [] from (List.append_nil _).symm]
    rw [fill_ten d0 "" d0_size [] 19 10485760 (by decide)]
    rw [show (10485760 : Int) + 10485760 * ((19 : Nat) : Int) = 209715200 from by
      decide]
    rfl
  · show (209715200 : Int) + elemSize d1 "k" > MAX_CACHE_SIZE
    rw [d1_size, MAX_CACHE_SIZE_eq]
    decide
  · exact removeOldest_singleton_empty_key MAX_CACHE_SIZE 209715200
      (CacheElement.make d0 "" 0)
  · exact add_stuck_empty_key MAX_CACHE_SIZE 209715200
      (CacheElement.make d0 "" 0) d1 "k" 0 (by rw [d1_size]; decide)
      (by rw [d1_size, MAX_CACHE_SIZE_eq]; decide)

/-- Claim C4 (amended): in the list variant (proxy_server.js) each eviction
step unlinks a node whose `lruTimeTrack` is minimal among all nodes at that
moment and subtracts its size; in the Map variant (part_001) the same holds
provided the (unique) keys are all non-empty — when the least-recently-
accessed entry is keyed `""`, the `if (oldestKey)` guard treats it as
absent and the eviction step removes nothing. -/
theorem c4_removeOldest_minimal :
    (∀ c : LRUCacheL, c.head ≠ [] →
      ∃ e q1 q2, c.head = q1 ++ e :: q2
        ∧ c.removeOldest
            = ({ currentSize := c.currentSize - e.size, head := q1 ++ q2 },
              some e)
        ∧ ∀ x ∈ c.head, e.lruTimeTrack ≤ x.lruTimeTrack)
    ∧ (∀ c : LRUCache, c.entries ≠ [] → (∀ p ∈ c.entries, p.1 ≠ "") →
        (c.entries.map Prod.fst).Nodup →
        ∃ k e, (k, e) ∈ c.entries
          ∧ c.removeOldest =
              ({ maxSize := c.maxSize, currentSize := c.currentSize - e.size,
                 entries := c.entries.eraseP (fun p => decide (p.1 = k)) },
                some k)
          ∧ ∀ p ∈ c.entries, e.lastAccessed ≤ p.2.lastAccessed) :=
  ⟨removeOldestL_minimal, removeOldest_minimal_of_keys⟩

/-- A concrete two-node list-variant cache for the C4 witness: the second
node was accessed at 3, the head at 7. -/
def c4wCacheL : LRUCacheL :=
  { currentSize := 5,
    head := [{ url := "a", data := [0, 0], size := 2, lruTimeTrack := 7 },
             { url := "b", data := [0, 0, 0], size := 3, lruTimeTrack := 3 }] }

/-- Witness for C4: on `c4wCacheL` the eviction step unlinks the node
stamped 3; on `c4wCache` it removes the entry keyed `"b"`, stamped 2. -/
theorem c4_removeOldest_minimal_witness :
    (∃ e q1 q2, c4wCacheL.head = q1 ++ e :: q2
      ∧ c4wCacheL.removeOldest
          = ({ currentSize := c4wCacheL.currentSize - e.size, head := q1 ++ q2 },
            some e)
      ∧ ∀ x ∈ c4wCacheL.head, e.lruTimeTrack ≤ x.lruTimeTrack)
    ∧ (∃ k e, (k, e) ∈ c4wCache.entries
      ∧ c4wCache.removeOldest =
          ({ maxSize := c4wCache.maxSize,
             currentSize := c4wCache.currentSize - e.size,
             entries := c4wCache.entries.eraseP (fun p => decide (p.1 = k)) },
            some k)
      ∧ ∀ p ∈ c4wCache.entries, e.lastAccessed ≤ p.2.lastAccessed) :=
  ⟨c4_removeOldest_minimal.1 c4wCacheL (by decide),
   c4_removeOldest_minimal.2 c4wCache (by decide) (by decide) (by decide)⟩

/-! ## Claim C10 -/

/-- Claim C10: the richer pipeline caches only upstream responses whose
status is exactly 200 — any other status is forwarded with its body but the
cache state is left untouched; a 200 is installed via the cache's `add`. -/
theorem c10_only_200_cached :
    (∀ (c : LRUCache) (m u : String) (r : FetchResult) (now : Nat),
      (c.find (m ++ " " ++ u) now).1 = none → r.statusCode ≠ 200 →
      handleRequestRich c (.ok ()) m u (.ok r) now
        = some ({ status := r.statusCode, contentType := none,
                  body := .bytes r.data }, c))
    ∧ (∀ (c : LRUCache) (m u : String) (r : FetchResult) (now : Nat)
        (o : AddOutcome) (c₂ : LRUCache),
      (c.find (m ++ " " ++ u) now).1 = none → r.statusCode = 200 →
      c.add r.data (m ++ " " ++ u) now = some (o, c₂) →
      handleRequestRich c (.ok ()) m u (.ok r) now
        = some ({ status := 200, contentType := none,
                  body := .bytes r.data }, c₂)) := by
  constructor
  · intro c m u r now hmiss h200
    unfold handleRequestRich
    rw [find_miss hmiss]
    simp only [if_neg h200]
  · intro c m u r now o c₂ hmiss h200 hadd
    unfold handleRequestRich
    rw [find_miss hmiss]
    simp only [if_pos h200, hadd, h200, if_true]

/-- Witness for C10: a 404 from upstream is forwarded and the (empty) cache
is unchanged. -/
theorem c10_only_200_cached_witness :
    handleRequestRich initCache (.ok ()) "GET" "http://x/"
        (.ok { statusCode := 404, data := [7] }) 0
      = some ({ status := 404, contentType := none, body := .bytes [7] }, initCache) :=
  c10_only_200_cached.1 initCache "GET" "http://x/"
    { statusCode := 404, data := [7] } 0 (by decide) (by decide)
